import Mathlib

/-!
Verification of the Propag monitoring dashboard's core data logic.

This file gives a shallow embedding, in Lean, of the pandas-based data
manipulation code of the repository (`app.py`, `applayout.py`,
`my_pkg/transform/schema.py`, `my_pkg/transform/rp_view.py`) and proves the
specification's claims about it.

Modelling conventions:
  * A dataframe cell is a `Cell`: a missing value (`null`, standing for
    NaN/None), a string, a rational number (standing for a float/int — the
    code only adds, subtracts and compares these, operations that floats and
    rationals share in the regimes the claims describe), or a boolean.
  * `pd.to_numeric(errors="coerce")` is `Cell.toNumOpt`: numbers pass
    through, booleans become 0/1 as in pandas, strings go through a decimal
    string parser (`parseNum`), everything unparsable becomes `none` (NaN).
  * `.astype(str)` is `Cell.toStr` (NaN prints as "nan", booleans as
    "True"/"False", as in pandas).
  * A planning-table row is the structure `PRow`, with one field per column
    the validation logic touches and an association list `rest` for the
    remaining columns; tables are lists of rows.
-/

namespace Propag

/-- A dataframe cell: missing (NaN/None), string, numeric (rational proxy
for float/int), or boolean. -/
inductive Cell where
  | null : Cell
  | str (s : String) : Cell
  | num (q : ℚ) : Cell
  | bool (b : Bool) : Cell
deriving DecidableEq

/-- Digit-fold helper: parses a nonempty all-digit character list. -/
def parseNatCore (cs : List Char) : Option Nat :=
  cs.foldl
    (fun acc c =>
      match acc with
      | none => none
      | some n => if c.isDigit then some (n * 10 + (c.toNat - 48)) else none)
    (some 0)

/-- Parses a nonempty all-digit string. -/
def parseNatStr (s : String) : Option Nat :=
  if s.isEmpty then none else parseNatCore s.toList

/-- Decimal-form numeric string parser, modelling `pd.to_numeric` on the
string forms the tables contain (optional sign, digits, optional fractional
part); anything else coerces to `none` (NaN). -/
def parseNum (s : String) : Option ℚ :=
  let t := s.trim
  let p := if t.startsWith "-" then (true, t.drop 1) else (false, t)
  match p.2.splitOn "." with
  | [ip] => (parseNatStr ip).map (fun n => if p.1 then -(n : ℚ) else (n : ℚ))
  | [ip, fp] =>
    match parseNatStr ip, parseNatStr fp with
    | some a, some b =>
      let q : ℚ := (a : ℚ) + (b : ℚ) / ((10 : ℚ) ^ fp.length)
      some (if p.1 then -q else q)
    | _, _ => none
  | _ => none

/-- Prints a rational the way the embedding prints numeric cells; integers
print without a fractional part, like pandas integer columns. -/
def qStr (q : ℚ) : String :=
  if q.den = 1 then toString q.num else toString q.num ++ "/" ++ toString q.den

/-- Models `.astype(str)` on one cell (pandas renders NaN as "nan" and
booleans as "True"/"False"). -/
def Cell.toStr : Cell → String
  | .null => "nan"
  | .str s => s
  | .num q => qStr q
  | .bool b => if b then "True" else "False"

/-- Models `pd.to_numeric(errors="coerce")` on one cell. -/
def Cell.toNumOpt : Cell → Option ℚ
  | .null => none
  | .num q => some q
  | .bool b => some (if b then 1 else 0)
  | .str s => parseNum s

/-- Models `pd.to_numeric(errors="coerce").fillna(0.0)` on one cell. -/
def cellNum0 (c : Cell) : ℚ :=
  (c.toNumOpt).getD 0

/-- Models `.isnull()` on one cell. -/
def Cell.isNull : Cell → Bool
  | .null => true
  | _ => false

/-- Truncation toward zero, modelling `.astype(int)` on a float value. -/
def truncQ (q : ℚ) : Int :=
  q.num.tdiv (q.den : Int)

/-- A planning-table row (`cronograma`): the columns the validation logic
reads are explicit fields; all other columns of the 28-column schema sit in
the association list `rest`. -/
structure PRow where
  uo_cod : Cell
  uo_sigla : Cell
  acao_cod : Cell
  acao_desc : Cell
  intervencao_cod : Cell
  intervencao_desc : Cell
  marcos_principais : Cell
  valor_previsto_total : Cell
  novo_marco : Cell
  rest : List (String × Cell)
deriving DecidableEq

/-- Column access on a planning row, by column name (unknown names fall back
to the `rest` association list, missing ones are NaN). -/
def PRow.col (r : PRow) (name : String) : Cell :=
  if name = "uo_cod" then r.uo_cod
  else if name = "uo_sigla" then r.uo_sigla
  else if name = "acao_cod" then r.acao_cod
  else if name = "acao_desc" then r.acao_desc
  else if name = "intervencao_cod" then r.intervencao_cod
  else if name = "intervencao_desc" then r.intervencao_desc
  else if name = "marcos_principais" then r.marcos_principais
  else if name = "valor_previsto_total" then r.valor_previsto_total
  else if name = "novo_marco" then r.novo_marco
  else (((r.rest.find? (fun p => p.1 == name)).map Prod.snd).getD Cell.null)

/-- `REQUIRED_ON_NEW` from `my_pkg/transform/schema.py`: fields that must be
filled on a newly inserted row. -/
def REQUIRED_ON_NEW : List String :=
  ["uo_cod", "uo_sigla", "acao_cod", "acao_desc", "intervencao_cod",
   "intervencao_desc", "marcos_principais", "valor_previsto_total"]

/-- The composite-key columns used by `validate_new_rows`. -/
def KEY_COLS : List String :=
  ["uo_cod", "acao_cod", "intervencao_cod", "marcos_principais"]

/-- The string-coerced composite key of a row
(`df[KEY_COLS].astype(str)` tuples in `validate_new_rows`). -/
def rowKey (r : PRow) : List String :=
  KEY_COLS.map (fun c => (r.col c).toStr)

/-- Models `is_new` of `validate_new_rows` (app.py): a row of `df_after`
whose key is in `new_keys = keys(after) - keys(before)`. -/
def isNewRow (df_before df_after : List PRow) (r : PRow) : Bool :=
  let before_idx := df_before.map rowKey
  let after_idx := df_after.map rowKey
  let new_keys := after_idx.filter (fun k => !before_idx.contains k)
  new_keys.contains (rowKey r)

/-- Models `df_after.loc[is_new, "novo_marco"] = "Sim"` acting on one row. -/
def stampNew (df_before df_after : List PRow) (r : PRow) : PRow :=
  if isNewRow df_before df_after r then { r with novo_marco := Cell.str "Sim" } else r

/-- Models the required-field test of `validate_new_rows` on one new row:
`new_rows[REQUIRED_ON_NEW].isnull().any(axis=1)` or
`(new_rows[REQUIRED_ON_NEW] == "").any(axis=1)` (a numeric or NaN cell never
equals `""` in pandas). -/
def rowMissingRequired (r : PRow) : Bool :=
  (REQUIRED_ON_NEW.map r.col).any
    (fun c => c.isNull || (match c with | .str s => s == "" | _ => false))

/-- Models the unit-code extraction of `validate_new_rows`:
`pd.to_numeric(df_after["uo_cod"], errors="coerce").fillna(-1).astype(int)`. -/
def uoInts (rows : List PRow) : List Int :=
  rows.map (fun r =>
    match (r.col "uo_cod").toNumOpt with
    | some q => truncQ q
    | none => -1)

/-- Error message for a new row with a blank required field (app.py). -/
def msgRequired : String := "Necessário preencher todos os campos da linha nova."

/-- Error message for rows without a unit code (app.py). -/
def msgNoUo : String := "Há linhas sem UO definida."

/-- Error message for rows outside the user's authorized units (app.py). -/
def msgNotAllowed : String := "Você só pode visualizar/editar sua(s) UO(s) autorizada(s)."

/-- Error message for rows leaving the pinned working unit (app.py). -/
def msgStayUo (w : Int) : String :=
  "As linhas devem permanecer na UO " ++ toString w ++ "."

/-- Shallow embedding of `validate_new_rows` (app.py lines 121-196).
Returns `(is_valid, msg, df_after_possibly_adjusted)`. -/
def validate_new_rows (df_before df_after : List PRow)
    (allowed_uos : Option (List Int)) (is_admin : Bool) (working_uo : Option Int) :
    Bool × String × List PRow :=
  let new_rows := df_after.filter (isNewRow df_before df_after)
  if !new_rows.isEmpty && new_rows.any rowMissingRequired then
    (false, msgRequired, df_after)
  else
    let df2 :=
      if new_rows.isEmpty then df_after
      else df_after.map (stampNew df_before df_after)
    if !is_admin then
      if df2.any (fun r => (r.col "uo_cod").isNull) then
        (false, msgNoUo, df2)
      else
        let uos := uoInts df2
        match allowed_uos with
        | none => (false, msgNotAllowed, df2)
        | some allowed =>
          if !uos.all (fun u => allowed.contains u) then
            (false, msgNotAllowed, df2)
          else
            match working_uo with
            | some w =>
              if uos.any (fun u => u != w) then (false, msgStayUo w, df2)
              else (true, "", df2)
            | none => (true, "", df2)
    else
      (true, "", df2)

/-- Models the pre-edit filtered subset `df_f` with its pandas index: the
rows of the full table whose (normalized) content satisfies the composed
RLS/UI row predicate `keep`, paired with their original positional index
(`conn.read` yields a default range index). -/
def filteredSubset {α : Type} (raw : List α) (keep : α → Bool) : List (Nat × α) :=
  raw.enum.filter (fun p => keep p.2)

/-- Shallow embedding of the save-handler merge-back (app.py lines 423-426):
`mask_to_drop = data_raw.index.isin(df_f.index)`;
`data_sem = data_raw.drop(index=data_raw.index[mask_to_drop])`;
`final_df = pd.concat([data_sem, edited_df], ignore_index=True)`. -/
def mergeBack {α : Type} (raw : List α) (dfF : List (Nat × α)) (edited : List α) :
    List α :=
  ((raw.enum.filter (fun p => !((dfF.map Prod.fst).contains p.1))).map Prod.snd)
    ++ edited

lemma contains_eq_false_of_forall_ne {l : List Nat} {x : Nat}
    (h : ∀ y ∈ l, x ≠ y) : l.contains x = false := by
  rw [Bool.eq_false_iff]
  intro hc
  exact h x (List.elem_iff.mp hc) rfl

lemma fst_ge_of_mem_enumFrom {α : Type} {p : Nat × α} {n : Nat} {l : List α}
    (h : p ∈ List.enumFrom n l) : n ≤ p.1 := by
  obtain ⟨i, x⟩ := p
  exact (List.mem_enumFrom h).1

lemma mergeBack_enumFrom {α : Type} (keep : α → Bool) :
    ∀ (l : List α) (n : Nat),
      ((List.enumFrom n l).filter
          (fun p =>
            !((((List.enumFrom n l).filter (fun q => keep q.2)).map Prod.fst).contains
                p.1))).map Prod.snd
        = l.filter (fun r => !keep r) := by
  intro l
  induction l with
  | nil => intro n; simp
  | cons a t ih =>
    intro n
    rw [List.enumFrom_cons]
    by_cases h : keep a
    · have hfilter :
          ((n, a) :: List.enumFrom (n + 1) t).filter (fun q => keep q.2)
            = (n, a) :: (List.enumFrom (n + 1) t).filter (fun q => keep q.2) := by
        simp [h]
      rw [hfilter]
      have hhead :
          (!((((n, a) :: (List.enumFrom (n + 1) t).filter (fun q => keep q.2)).map
              Prod.fst).contains n)) = false := by
        simp
      have htail :
          ∀ p ∈ List.enumFrom (n + 1) t,
            (!((((n, a) :: (List.enumFrom (n + 1) t).filter (fun q => keep q.2)).map
                Prod.fst).contains p.1))
              = (!((((List.enumFrom (n + 1) t).filter (fun q => keep q.2)).map
                  Prod.fst).contains p.1)) := by
        intro p hp
        have hge : n + 1 ≤ p.1 := fst_ge_of_mem_enumFrom hp
        have : (p.1 == n) = false := by
          simp only [beq_eq_false_iff_ne, ne_eq]
          omega
        simp [List.contains_cons, this]
      rw [List.filter_cons, hhead, List.filter_congr htail]
      simp only [Bool.false_eq_true, if_false]
      rw [ih (n + 1)]
      simp [h]
    · have hb : keep a = false := by simpa using h
      have hfilter :
          ((n, a) :: List.enumFrom (n + 1) t).filter (fun q => keep q.2)
            = (List.enumFrom (n + 1) t).filter (fun q => keep q.2) := by
        simp [hb]
      rw [hfilter]
      have hnm :
          ∀ y ∈ (((List.enumFrom (n + 1) t).filter (fun q => keep q.2)).map
              Prod.fst), n ≠ y := by
        intro y hy
        obtain ⟨p, hp, rfl⟩ := List.mem_map.mp hy
        have hp' : p ∈ List.enumFrom (n + 1) t := List.mem_of_mem_filter hp
        have := fst_ge_of_mem_enumFrom hp'
        omega
      have hhead :
          (!((((List.enumFrom (n + 1) t).filter (fun q => keep q.2)).map
              Prod.fst).contains n)) = true := by
        rw [contains_eq_false_of_forall_ne hnm]
        rfl
      rw [List.filter_cons, hhead]
      simp only [eq_self_iff_true, if_true, List.map_cons]
      rw [ih (n + 1)]
      simp [hb]

/-- C1. For every full planning table, every pre-edit filtered subset of it
(obtained by a row predicate, as the app's RLS and UI filters are), and every
edited subset, the merge-back yields exactly the rows of the full table
outside the filter, unchanged and in order, followed by exactly the rows of
the edited subset: rows outside the filter are preserved bit-identically,
rows inside it are replaced by the edited subset with no duplication and no
loss. -/
theorem C1_merge_back_frame {α : Type} (raw : List α) (keep : α → Bool)
    (edited : List α) :
    mergeBack raw (filteredSubset raw keep) edited
      = raw.filter (fun r => !keep r) ++ edited := by
  unfold mergeBack filteredSubset
  rw [show raw.enum = List.enumFrom 0 raw from rfl]
  rw [mergeBack_enumFrom keep raw 0]

lemma contains_iff {α : Type} [BEq α] [LawfulBEq α] (l : List α) (x : α) :
    l.contains x = true ↔ x ∈ l := by
  simp [List.contains, List.elem_iff]

lemma not_isEmpty_and_any {α : Type} (l : List α) (p : α → Bool) :
    (!l.isEmpty && l.any p) = l.any p := by
  cases l <;> simp

lemma col_uo_of_stamp (b a : List PRow) (r : PRow) :
    (stampNew b a r).col "uo_cod" = r.col "uo_cod" := by
  unfold stampNew
  by_cases h : isNewRow b a r <;> simp [h, PRow.col]

lemma any_congr {α : Type} (l : List α) (p q : α → Bool)
    (h : ∀ x ∈ l, p x = q x) : l.any p = l.any q := by
  induction l with
  | nil => rfl
  | cons x t ih =>
    simp only [List.any_cons]
    rw [h x (List.mem_cons_self x t), ih (fun y hy => h y (List.mem_cons_of_mem x hy))]

lemma any_null_uo_map_stamp (b a : List PRow) :
    (a.map (stampNew b a)).any (fun r => ((r.col "uo_cod").isNull))
      = a.any (fun r => ((r.col "uo_cod").isNull)) := by
  rw [List.any_map]
  exact any_congr a _ _ (fun x _ => by
    simp only [Function.comp_apply, col_uo_of_stamp])

lemma uoInts_map_stamp (b a : List PRow) :
    uoInts (a.map (stampNew b a)) = uoInts a := by
  unfold uoInts
  rw [List.map_map]
  exact List.map_congr_left (fun x _ => by
    simp only [Function.comp_apply, col_uo_of_stamp])

lemma isNewRow_eq_not_mem_before (before after : List PRow) (r : PRow)
    (hr : r ∈ after) :
    isNewRow before after r = !((before.map rowKey).contains (rowKey r)) := by
  unfold isNewRow
  cases hb : (before.map rowKey).contains (rowKey r) with
  | true =>
    simp only [Bool.not_true]
    rw [Bool.eq_false_iff]
    intro hc
    have hmem := (contains_iff _ _).mp hc
    have h2 := (List.mem_filter.mp hmem).2
    rw [hb] at h2
    exact absurd h2 (by decide)
  | false =>
    simp only [Bool.not_false]
    apply (contains_iff _ _).mpr
    apply List.mem_filter.mpr
    refine ⟨List.mem_map.mpr ⟨r, hr, rfl⟩, ?_⟩
    rw [hb]
    rfl

lemma map_stamp_of_no_new (before after : List PRow)
    (h : after.filter (isNewRow before after) = []) :
    after.map (stampNew before after) = after := by
  have hall := List.filter_eq_nil_iff.mp h
  calc after.map (stampNew before after)
      = after.map id := by
        apply List.map_congr_left
        intro r hr
        have hn : isNewRow before after r = false := by
          have := hall r hr
          simpa using this
        simp [stampNew, hn]
    _ = after := List.map_id after

lemma validate_fst_false_of_guard (b a : List PRow) (al : Option (List Int))
    (adm : Bool) (w : Option Int)
    (hg : (a.filter (isNewRow b a)).any rowMissingRequired = true) :
    validate_new_rows b a al adm w = (false, msgRequired, a) := by
  simp only [validate_new_rows]
  split
  · rfl
  · next h =>
    rw [not_isEmpty_and_any, hg] at h
    exact absurd rfl h

lemma validate_snd_snd (b a : List PRow) (al : Option (List Int)) (adm : Bool)
    (w : Option Int)
    (hguard : (a.filter (isNewRow b a)).any rowMissingRequired = false) :
    (validate_new_rows b a al adm w).2.2
      = (if (a.filter (isNewRow b a)).isEmpty then a else a.map (stampNew b a)) := by
  simp only [validate_new_rows]
  split
  · next h =>
    rw [not_isEmpty_and_any, hguard] at h
    exact absurd h (by decide)
  · (repeat' split) <;> rfl

/-- C2. For a non-admin user with an authorized-unit list, the save
validation succeeds exactly when: no new row is missing a required field, no
row of `after` has a null unit code, every unit code present across `after`
(coerced as the code does, unparsable to -1) lies in the allowed list, and —
when a working unit is pinned — every row's unit code equals it. In
particular the validation returns `false` whenever any of the three
unit-code conditions fails, and the unit-code checks pass only when all
three hold. -/
theorem C2_nonadmin_unit_checks (before after : List PRow) (allowed : List Int)
    (w : Option Int) :
    (validate_new_rows before after (some allowed) false w).1
      = (!(after.filter (isNewRow before after)).any rowMissingRequired
        && !after.any (fun r => ((r.col "uo_cod").isNull))
        && (uoInts after).all (fun u => allowed.contains u)
        && (match w with
            | some wv => (uoInts after).all (fun u => u == wv)
            | none => true)) := by
  have hdf2null :
      (if (after.filter (isNewRow before after)).isEmpty then after
        else after.map (stampNew before after)).any
          (fun r => ((r.col "uo_cod").isNull))
        = after.any (fun r => ((r.col "uo_cod").isNull)) := by
    split
    · rfl
    · exact any_null_uo_map_stamp before after
  have hdf2uo :
      uoInts (if (after.filter (isNewRow before after)).isEmpty then after
        else after.map (stampNew before after))
        = uoInts after := by
    split
    · rfl
    · exact uoInts_map_stamp before after
  have hcompl : ∀ wv : Int,
      ((uoInts after).any (fun u => u != wv) = false)
        ↔ ((uoInts after).all (fun u => u == wv) = true) := by
    intro wv
    constructor
    · intro hpin
      apply List.all_eq_true.mpr
      intro u hu
      have := List.any_eq_false.mp hpin u hu
      simpa [bne] using this
    · intro hall
      apply List.any_eq_false.mpr
      intro u hu
      have := List.all_eq_true.mp hall u hu
      simp [bne, this]
  cases hg : (after.filter (isNewRow before after)).any rowMissingRequired with
  | true =>
    rw [validate_fst_false_of_guard before after (some allowed) false w hg]
    simp
  | false =>
    simp only [validate_new_rows]
    split
    · next h =>
      rw [not_isEmpty_and_any, hg] at h
      exact absurd h (by decide)
    · split
      · -- non-admin branch (is_admin is the literal false)
        rw [hdf2null, hdf2uo]
        split
        · next h =>
          -- some row of after has a null unit code
          simp only [hg, h, Bool.not_false, Bool.not_true, Bool.true_and,
            Bool.false_and, Bool.and_false]
        · next h =>
          have hnull : after.any (fun r => ((r.col "uo_cod").isNull)) = false :=
            Bool.eq_false_iff.mpr h
          split
          · next h2 =>
            -- subset check failed
            have hsub : (uoInts after).all (fun u => allowed.contains u) = false := by
              cases hval : (uoInts after).all (fun u => allowed.contains u)
              · rfl
              · rw [hval] at h2
                exact absurd h2 (by decide)
            simp only [hg, hnull, hsub, Bool.not_false, Bool.true_and,
              Bool.and_false, Bool.false_and]
          · next h2 =>
            have hsub : (uoInts after).all (fun u => allowed.contains u) = true := by
              cases hval : (uoInts after).all (fun u => allowed.contains u)
              · rw [hval] at h2
                exact absurd (by decide) h2
              · rfl
            split
            · next wv =>
              split
              · next h3 =>
                have hne : (uoInts after).all (fun u => u == wv) = false := by
                  cases hval : (uoInts after).all (fun u => u == wv) with
                  | false => rfl
                  | true =>
                    have hany := (hcompl wv).mpr hval
                    rw [hany] at h3
                    exact absurd h3 (by decide)
                simp only [hg, hnull, hsub, hne, Bool.not_false, Bool.true_and,
                  Bool.and_true, Bool.and_false]
              · next h3 =>
                have hpin : (uoInts after).any (fun u => u != wv) = false :=
                  Bool.eq_false_iff.mpr h3
                have hall : (uoInts after).all (fun u => u == wv) = true :=
                  (hcompl wv).mp hpin
                simp only [hg, hnull, hsub, hall, Bool.not_false, Bool.true_and,
                  Bool.and_true]
            · simp only [hg, hnull, hsub, Bool.not_false, Bool.true_and,
                Bool.and_true]
      · next h =>
        exact absurd (by decide) h

lemma validate_out_of_ok (b a : List PRow) (al : Option (List Int)) (adm : Bool)
    (w : Option Int) (hok : (validate_new_rows b a al adm w).1 = true) :
    (validate_new_rows b a al adm w).2.2 = a.map (stampNew b a) := by
  have hg : (a.filter (isNewRow b a)).any rowMissingRequired = false := by
    cases hval : (a.filter (isNewRow b a)).any rowMissingRequired
    · rfl
    · rw [validate_fst_false_of_guard b a al adm w hval] at hok
      simp at hok
  rw [validate_snd_snd b a al adm w hg]
  split
  · next hemp =>
    exact (map_stamp_of_no_new b a (List.isEmpty_iff.mp hemp)).symm
  · rfl

/-- Sample planning row used to instantiate the validator theorems. -/
def wRowOld : PRow :=
  ⟨Cell.num 10, Cell.str "DER", Cell.num 1, Cell.str "Acao A", Cell.num 2,
   Cell.str "Interv B", Cell.str "Marco 1", Cell.num 100, Cell.str "Não", []⟩

/-- Sample fully-filled new planning row (fresh composite key). -/
def wRowNew : PRow :=
  ⟨Cell.num 10, Cell.str "DER", Cell.num 1, Cell.str "Acao A", Cell.num 2,
   Cell.str "Interv B", Cell.str "Marco 2", Cell.num 200, Cell.str "Não", []⟩

/-- Sample new planning row with a blank (null) required field. -/
def wRowBad : PRow :=
  ⟨Cell.null, Cell.str "DER", Cell.num 1, Cell.str "Acao A", Cell.num 2,
   Cell.str "Interv B", Cell.str "Marco 3", Cell.num 300, Cell.str "Não", []⟩

/-- C3. If any newly-added row (composite key absent from `before`) has a
null or empty-string value in a required-on-insert field, the whole save is
rejected: `validate_new_rows` returns `ok = False` with the
all-fields-required message and performs no partial acceptance, regardless of
the other rows. -/
theorem C3_required_field_gate (before after : List PRow)
    (allowed : Option (List Int)) (adm : Bool) (w : Option Int) (r : PRow)
    (hr : r ∈ after) (hnew : isNewRow before after r = true)
    (hmiss : rowMissingRequired r = true) :
    validate_new_rows before after allowed adm w = (false, msgRequired, after) := by
  have hany : (after.filter (isNewRow before after)).any rowMissingRequired = true :=
    List.any_eq_true.mpr ⟨r, List.mem_filter.mpr ⟨hr, hnew⟩, hmiss⟩
  exact validate_fst_false_of_guard before after allowed adm w hany

/-- Witness for C3: one valid new row plus one invalid new row still rejects
the whole batch. -/
theorem C3_required_field_gate_witness :
    validate_new_rows [wRowOld] [wRowOld, wRowNew, wRowBad] (some [10]) false
      (some 10) = (false, msgRequired, [wRowOld, wRowNew, wRowBad]) :=
  C3_required_field_gate [wRowOld] [wRowOld, wRowNew, wRowBad] (some [10]) false
    (some 10) wRowBad (by decide) (by decide) (by decide)

/-- C4. New rows are exactly the rows of `after` whose string-coerced
composite key is absent from `before`'s key set (a pre-existing key is never
flagged new); on the success path the returned table is `after` with every
new row's `novo_marco` stamped to the new-milestone value "Sim", overwriting
whatever the editor supplied. -/
theorem C4_new_row_key_and_stamp (before after : List PRow)
    (allowed : Option (List Int)) (adm : Bool) (w : Option Int) (r : PRow)
    (hr : r ∈ after) :
    (isNewRow before after r = !((before.map rowKey).contains (rowKey r)))
    ∧ ((validate_new_rows before after allowed adm w).1 = true →
        (validate_new_rows before after allowed adm w).2.2
          = after.map (stampNew before after))
    ∧ (isNewRow before after r = true →
        (stampNew before after r).novo_marco = Cell.str "Sim") := by
  refine ⟨isNewRow_eq_not_mem_before before after r hr, ?_, ?_⟩
  · intro hok
    exact validate_out_of_ok before after allowed adm w hok
  · intro hnew
    simp [stampNew, hnew]

/-- Witness for C4: a successful save returns the after-table with the new
row stamped. -/
theorem C4_new_row_key_and_stamp_witness :
    (validate_new_rows [wRowOld] [wRowOld, wRowNew] (some [10]) false
        (some 10)).2.2
      = [wRowOld, wRowNew].map (stampNew [wRowOld] [wRowOld, wRowNew]) :=
  (C4_new_row_key_and_stamp [wRowOld] [wRowOld, wRowNew] (some [10]) false
    (some 10) wRowNew (by decide)).2.1 (by decide)

/-- A pre-existing row (same composite key as `wRowOld`) whose `novo_marco`
an editor switched to "Sim" through the editable selectbox column. -/
def cRowEdited : PRow :=
  { wRowOld with novo_marco := Cell.str "Sim" }

/-- Counterexample to C6 as stated. `novo_marco` is exposed as an editable
selectbox in the data editor (it is excluded from `disabled_cols` in app.py),
and the validator only stamps rows whose key is new: for a pre-existing row
whose `novo_marco` the editor flipped from "Não" to "Sim", the save validates
successfully and the merge-back persists the editor-supplied value
unchanged — an editor-supplied `novo_marco` does reach the saved table. -/
theorem C6_counterexample_editor_novo_marco :
    isNewRow [wRowOld] [cRowEdited] cRowEdited = false
    ∧ validate_new_rows [wRowOld] [cRowEdited] (some [10]) false (some 10)
        = (true, "", [cRowEdited])
    ∧ mergeBack [wRowOld] (filteredSubset [wRowOld] (fun _ => true)) [cRowEdited]
        = [cRowEdited]
    ∧ cRowEdited.novo_marco = Cell.str "Sim"
    ∧ wRowOld.novo_marco = Cell.str "Não" := by
  decide

/-- C6 (amended). The validator, not the editor, determines `novo_marco` for
newly-added rows: on a successful save the persisted table is `after` with
every new row's `novo_marco` overwritten to "Sim"; rows whose composite key
pre-existed are persisted exactly as the editor left them, including any
editor-supplied `novo_marco` value. -/
theorem C6_amended_stamping (before after : List PRow) (al : Option (List Int))
    (adm : Bool) (w : Option Int)
    (hok : (validate_new_rows before after al adm w).1 = true) :
    (validate_new_rows before after al adm w).2.2
        = after.map (stampNew before after)
    ∧ (∀ r ∈ after, isNewRow before after r = true →
        (stampNew before after r).novo_marco = Cell.str "Sim")
    ∧ (∀ r ∈ after, isNewRow before after r = false →
        stampNew before after r = r) := by
  refine ⟨validate_out_of_ok before after al adm w hok, ?_, ?_⟩
  · intro r _ hnew
    simp [stampNew, hnew]
  · intro r _ hold
    simp [stampNew, hold]

/-- Witness for the amended C6. -/
theorem C6_amended_stamping_witness :
    (validate_new_rows [wRowOld] [wRowOld, wRowNew] (some [10]) false
        (some 10)).2.2
      = [wRowOld, wRowNew].map (stampNew [wRowOld] [wRowOld, wRowNew])
    ∧ (∀ r ∈ [wRowOld, wRowNew],
        isNewRow [wRowOld] [wRowOld, wRowNew] r = true →
          (stampNew [wRowOld] [wRowOld, wRowNew] r).novo_marco = Cell.str "Sim")
    ∧ (∀ r ∈ [wRowOld, wRowNew],
        isNewRow [wRowOld] [wRowOld, wRowNew] r = false →
          stampNew [wRowOld] [wRowOld, wRowNew] r = r) :=
  C6_amended_stamping [wRowOld] [wRowOld, wRowNew] (some [10]) false (some 10)
    (by decide)

/-- A raw arrears (restos a pagar) fact row, as read from the CSV: the join
keys and classifier codes plus the fifteen raw ledger columns consumed by
`_calculate_metrics` (`my_pkg/transform/rp_view.py`). Operational text
columns not touched by the claims are omitted. -/
structure RPRow where
  ano : Cell
  uo_cod : Cell
  acao_cod : Cell
  elemento_item_cod : Cell
  fonte_cod : Cell
  ipu_cod : Cell
  vlr_inscrito_rpp : Cell
  vlr_cancelado_rpp : Cell
  vlr_desconto_rpp : Cell
  vlr_restabelecido_rpp : Cell
  vlr_pago_rpp : Cell
  vlr_anulacao_pagamento_rpp : Cell
  vlr_retencao_rpp : Cell
  vlr_anulacao_retencao_rpp : Cell
  vlr_saldo_rpp : Cell
  vlr_inscrito_rpnp : Cell
  vlr_cancelado_rpnp : Cell
  vlr_restabelecido_rpnp : Cell
  vlr_despesa_liquidada_rpnp : Cell
  vlr_saldo_rpnp : Cell
  vlr_despesa_liquidada_pagar : Cell
deriving DecidableEq

/-- Numeric equality test of a cell against a constant, as pandas `==`
behaves in a filter mask (NaN compares unequal to everything). -/
def cellEqNum (c : Cell) (x : ℚ) : Bool :=
  match c.toNumOpt with
  | some q => q == x
  | none => false

/-- The in-place coercion at the top of `_apply_global_filter` (rp_view.py):
`df[c] = pd.to_numeric(df[c], errors="coerce").fillna(0)` for `fonte_cod`,
`ipu_cod`, `uo_cod`. -/
def coerceKeysRP (r : RPRow) : RPRow :=
  { r with fonte_cod := Cell.num (cellNum0 r.fonte_cod),
           ipu_cod := Cell.num (cellNum0 r.ipu_cod),
           uo_cod := Cell.num (cellNum0 r.uo_cod) }

/-- The fixed business mask of `_apply_global_filter`:
`(fonte_cod == 89 | ipu_cod == 0) & (uo_cod != 1261)`. -/
def globalMask (r : RPRow) : Bool :=
  (cellEqNum r.fonte_cod 89 || cellEqNum r.ipu_cod 0)
    && !(cellEqNum r.uo_cod 1261)

/-- Shallow embedding of `_apply_global_filter` (rp_view.py lines 104-114):
coerce the three classifier columns with null-fill to 0, then keep the rows
satisfying the fixed business mask. -/
def _apply_global_filter (df : List RPRow) : List RPRow :=
  (df.map coerceKeysRP).filter globalMask

/-- Models `pd.to_numeric(errors="coerce").astype("Int64")` on one cell
(`_ensure_join_types` in rp_view.py). -/
def ensureInt64 (c : Cell) : Cell :=
  match c.toNumOpt with
  | some q => Cell.num ((truncQ q : Int) : ℚ)
  | none => Cell.null

/-- `_ensure_join_types(df, ["ano", "uo_cod", "acao_cod",
"elemento_item_cod"])` acting on one row. -/
def ensureJoinTypesRow (r : RPRow) : RPRow :=
  { r with ano := ensureInt64 r.ano,
           uo_cod := ensureInt64 r.uo_cod,
           acao_cod := ensureInt64 r.acao_cod,
           elemento_item_cod := ensureInt64 r.elemento_item_cod }

/-- The null-fill-to-0.0 pass at the top of `_calculate_metrics`:
`df[c] = pd.to_numeric(df[c], errors="coerce").fillna(0.0)` for each of the
fifteen raw ledger columns. -/
def fillBaseRP (r : RPRow) : RPRow :=
  { r with
    vlr_inscrito_rpp := Cell.num (cellNum0 r.vlr_inscrito_rpp),
    vlr_cancelado_rpp := Cell.num (cellNum0 r.vlr_cancelado_rpp),
    vlr_desconto_rpp := Cell.num (cellNum0 r.vlr_desconto_rpp),
    vlr_restabelecido_rpp := Cell.num (cellNum0 r.vlr_restabelecido_rpp),
    vlr_pago_rpp := Cell.num (cellNum0 r.vlr_pago_rpp),
    vlr_anulacao_pagamento_rpp := Cell.num (cellNum0 r.vlr_anulacao_pagamento_rpp),
    vlr_retencao_rpp := Cell.num (cellNum0 r.vlr_retencao_rpp),
    vlr_anulacao_retencao_rpp := Cell.num (cellNum0 r.vlr_anulacao_retencao_rpp),
    vlr_saldo_rpp := Cell.num (cellNum0 r.vlr_saldo_rpp),
    vlr_inscrito_rpnp := Cell.num (cellNum0 r.vlr_inscrito_rpnp),
    vlr_cancelado_rpnp := Cell.num (cellNum0 r.vlr_cancelado_rpnp),
    vlr_restabelecido_rpnp := Cell.num (cellNum0 r.vlr_restabelecido_rpnp),
    vlr_despesa_liquidada_rpnp := Cell.num (cellNum0 r.vlr_despesa_liquidada_rpnp),
    vlr_saldo_rpnp := Cell.num (cellNum0 r.vlr_saldo_rpnp),
    vlr_despesa_liquidada_pagar := Cell.num (cellNum0 r.vlr_despesa_liquidada_pagar) }

/-- An arrears row extended with the nine derived metric columns added by
`_calculate_metrics`. -/
structure RPCalcRow where
  row : RPRow
  calc_inscrito_rpp : ℚ
  calc_cancelado_rpp : ℚ
  calc_pago_rpp : ℚ
  calc_saldo_rpp : ℚ
  calc_inscrito_rpnp : ℚ
  calc_cancelado_rpnp : ℚ
  calc_liquidado_rpnp : ℚ
  calc_saldo_rpnp : ℚ
  calc_pago_rpnp : ℚ
deriving DecidableEq

/-- Shallow embedding of `_calculate_metrics` (rp_view.py lines 117-176)
acting on one row: null-fill the fifteen base columns, then derive the nine
metric columns by the stated formulas. -/
def _calculate_metrics_row (r : RPRow) : RPCalcRow :=
  let r2 := fillBaseRP r
  { row := r2,
    calc_inscrito_rpp := cellNum0 r2.vlr_inscrito_rpp,
    calc_cancelado_rpp :=
      cellNum0 r2.vlr_cancelado_rpp + cellNum0 r2.vlr_desconto_rpp
        - cellNum0 r2.vlr_restabelecido_rpp,
    calc_pago_rpp :=
      cellNum0 r2.vlr_pago_rpp - cellNum0 r2.vlr_anulacao_pagamento_rpp
        + cellNum0 r2.vlr_retencao_rpp - cellNum0 r2.vlr_anulacao_retencao_rpp,
    calc_saldo_rpp := cellNum0 r2.vlr_saldo_rpp,
    calc_inscrito_rpnp := cellNum0 r2.vlr_inscrito_rpnp,
    calc_cancelado_rpnp :=
      cellNum0 r2.vlr_cancelado_rpnp - cellNum0 r2.vlr_restabelecido_rpnp,
    calc_liquidado_rpnp := cellNum0 r2.vlr_despesa_liquidada_rpnp,
    calc_saldo_rpnp := cellNum0 r2.vlr_saldo_rpnp,
    calc_pago_rpnp :=
      cellNum0 r2.vlr_saldo_rpp + cellNum0 r2.vlr_despesa_liquidada_rpnp
        - cellNum0 r2.vlr_despesa_liquidada_pagar }

/-- `_calculate_metrics` over a whole table. -/
def _calculate_metrics (df : List RPRow) : List RPCalcRow :=
  df.map _calculate_metrics_row

/-- Steps 1-4 of `load_rp_view` (rp_view.py lines 179-194): load, global
filter, metric derivation, join-key typing, then the optional row-level
restriction to one unit. (Steps 5-8, the left joins against the dimension
tables and the final text/int typing and column selection, only attach
description columns and are not touched by the claims.) -/
def load_rp_view_filtered (raw : List RPRow) (restrict_uo : Option Int) :
    List RPCalcRow :=
  let df1 := _apply_global_filter raw
  let df2 := _calculate_metrics df1
  let df3 := df2.map (fun cr => { cr with row := ensureJoinTypesRow cr.row })
  match restrict_uo with
  | some u => df3.filter (fun cr => cellEqNum cr.row.uo_cod ((u : Int) : ℚ))
  | none => df3

lemma globalFilter_sound (df : List RPRow) (r : RPRow)
    (h : r ∈ _apply_global_filter df) : globalMask r = true :=
  (List.mem_filter.mp h).2

lemma globalFilter_complete (df : List RPRow) (r0 : RPRow) (h0 : r0 ∈ df)
    (hm : globalMask (coerceKeysRP r0) = true) :
    coerceKeysRP r0 ∈ _apply_global_filter df :=
  List.mem_filter.mpr ⟨List.mem_map.mpr ⟨r0, h0, rfl⟩, hm⟩

/-- Builder for scenario fact rows: classifier cells as given, ledger
columns missing. -/
def rpRowOf (fonte ipu uo : Cell) : RPRow :=
  ⟨Cell.num 2026, uo, Cell.num 100, Cell.num 5, fonte, ipu,
   Cell.null, Cell.null, Cell.null, Cell.null, Cell.null, Cell.null,
   Cell.null, Cell.null, Cell.null, Cell.null, Cell.null, Cell.null,
   Cell.null, Cell.null, Cell.null⟩

/-- Scenario row: fonte 89, ipu 5, uo 10 (kept: fonte matches). -/
def rpS1 : RPRow := rpRowOf (Cell.num 89) (Cell.num 5) (Cell.num 10)

/-- Scenario row: fonte 1, ipu 0, uo 10 (kept: ipu matches). -/
def rpS2 : RPRow := rpRowOf (Cell.num 1) (Cell.num 0) (Cell.num 10)

/-- Scenario row: fonte 89, ipu 0, uo 1261 (dropped: excluded unit). -/
def rpS3 : RPRow := rpRowOf (Cell.num 89) (Cell.num 0) (Cell.num 1261)

/-- Scenario row: fonte 1, ipu 5, uo 10 (dropped: no funding rule holds). -/
def rpS4 : RPRow := rpRowOf (Cell.num 1) (Cell.num 5) (Cell.num 10)

/-- C5. The dimensional view's global filter keeps exactly the fact rows
satisfying `(fonte_cod == 89 OR ipu_cod == 0) AND uo_cod != 1261` (on the
null-filled coerced classifier values): every kept row satisfies the mask,
every row of the input satisfying it is kept, the four scenario rows reduce
to exactly the first two, and the user-level restriction is applied on top
of (never instead of) the globally filtered view. -/
theorem C5_global_filter_exact :
    (_apply_global_filter [rpS1, rpS2, rpS3, rpS4] = [rpS1, rpS2])
    ∧ (∀ (df : List RPRow) (r : RPRow),
        r ∈ _apply_global_filter df → globalMask r = true)
    ∧ (∀ (df : List RPRow) (r0 : RPRow), r0 ∈ df →
        globalMask (coerceKeysRP r0) = true →
          coerceKeysRP r0 ∈ _apply_global_filter df)
    ∧ (∀ (raw : List RPRow) (u : Int),
        load_rp_view_filtered raw (some u)
          = (load_rp_view_filtered raw none).filter
              (fun cr => cellEqNum cr.row.uo_cod ((u : Int) : ℚ))) := by
  refine ⟨by decide, globalFilter_sound, globalFilter_complete, ?_⟩
  intro raw u
  rfl

/-- Witness for C5: a concrete retained row, through the completeness
direction. -/
theorem C5_global_filter_exact_witness :
    coerceKeysRP rpS1 ∈ _apply_global_filter [rpS4, rpS1] :=
  C5_global_filter_exact.2.2.1 [rpS4, rpS1] rpS1 (by decide) (by decide)

/-- C7. For every arrears fact row, with every raw ledger input null-filled
to 0.0 first, the nine derived columns equal exactly the stated formulas; in
particular `calc_cancelado_rpp = vlr_cancelado_rpp + vlr_desconto_rpp -
vlr_restabelecido_rpp`, `calc_cancelado_rpnp = vlr_cancelado_rpnp -
vlr_restabelecido_rpnp`, and `calc_pago_rpnp = vlr_saldo_rpp +
vlr_despesa_liquidada_rpnp - vlr_despesa_liquidada_pagar`. -/
theorem C7_arrears_formulas (r : RPRow) :
    (_calculate_metrics_row r).calc_inscrito_rpp = cellNum0 r.vlr_inscrito_rpp
    ∧ (_calculate_metrics_row r).calc_cancelado_rpp
        = cellNum0 r.vlr_cancelado_rpp + cellNum0 r.vlr_desconto_rpp
            - cellNum0 r.vlr_restabelecido_rpp
    ∧ (_calculate_metrics_row r).calc_pago_rpp
        = cellNum0 r.vlr_pago_rpp - cellNum0 r.vlr_anulacao_pagamento_rpp
            + cellNum0 r.vlr_retencao_rpp - cellNum0 r.vlr_anulacao_retencao_rpp
    ∧ (_calculate_metrics_row r).calc_saldo_rpp = cellNum0 r.vlr_saldo_rpp
    ∧ (_calculate_metrics_row r).calc_inscrito_rpnp = cellNum0 r.vlr_inscrito_rpnp
    ∧ (_calculate_metrics_row r).calc_cancelado_rpnp
        = cellNum0 r.vlr_cancelado_rpnp - cellNum0 r.vlr_restabelecido_rpnp
    ∧ (_calculate_metrics_row r).calc_liquidado_rpnp
        = cellNum0 r.vlr_despesa_liquidada_rpnp
    ∧ (_calculate_metrics_row r).calc_saldo_rpnp = cellNum0 r.vlr_saldo_rpnp
    ∧ (_calculate_metrics_row r).calc_pago_rpnp
        = cellNum0 r.vlr_saldo_rpp + cellNum0 r.vlr_despesa_liquidada_rpnp
            - cellNum0 r.vlr_despesa_liquidada_pagar :=
  ⟨rfl, rfl, rfl, rfl, rfl, rfl, rfl, rfl, rfl⟩

/-- Row with a missing (unparsable) `ipu_cod` and an in-scope unit. -/
def rpSNullIpu : RPRow := rpRowOf (Cell.num 1) Cell.null (Cell.num 10)

/-- C10. In the global filter of `load_rp_view`, a fact row whose `ipu_cod`
is missing or unparsable is retained rather than excluded: the missing value
is coerced to 0, which satisfies the `ipu_cod == 0` branch of the predicate,
so the row passes the filter provided its (null-filled) `uo_cod` is not
1261. -/
theorem C10_missing_ipu_in_scope (df : List RPRow) (r0 : RPRow) (h0 : r0 ∈ df)
    (hipu : r0.ipu_cod.toNumOpt = none) (huo : cellNum0 r0.uo_cod ≠ 1261) :
    coerceKeysRP r0 ∈ _apply_global_filter df
    ∧ (coerceKeysRP r0).ipu_cod = Cell.num 0 := by
  have hipu0 : cellNum0 r0.ipu_cod = 0 := by
    unfold cellNum0
    rw [hipu]
    rfl
  have hmask : globalMask (coerceKeysRP r0) = true := by
    unfold globalMask coerceKeysRP cellEqNum
    simp only [Cell.toNumOpt, hipu0]
    have h1261 : (cellNum0 r0.uo_cod == (1261 : ℚ)) = false :=
      beq_eq_false_iff_ne.mpr huo
    simp [h1261]
  refine ⟨globalFilter_complete df r0 h0 hmask, ?_⟩
  unfold coerceKeysRP
  rw [hipu0]

/-- Witness for C10: a concrete row with a null `ipu_cod` is retained. -/
theorem C10_missing_ipu_in_scope_witness :
    coerceKeysRP rpSNullIpu ∈ _apply_global_filter [rpSNullIpu]
    ∧ (coerceKeysRP rpSNullIpu).ipu_cod = Cell.num 0 :=
  C10_missing_ipu_in_scope [rpSNullIpu] rpSNullIpu (by decide) (by decide)
    (by decide)

/-- `ALL_COLS` from `my_pkg/transform/schema.py`: the canonical planning
column set, in canonical order. -/
def ALL_COLS : List String :=
  ["uo_cod", "uo_sigla", "acao_cod", "acao_desc", "intervencao_cod",
   "intervencao_desc", "marcos_principais", "novo_marco",
   "valor_previsto_total", "valor_replanejado_total",
   "1_bimestre_planejado", "1_bimestre_replanejado", "1_bimestre_realizado",
   "2_bimestre_planejado", "2_bimestre_replanejado", "2_bimestre_realizado",
   "3_bimestre_planejado", "3_bimestre_replanejado", "3_bimestre_realizado",
   "4_bimestre_planejado", "4_bimestre_replanejado", "4_bimestre_realizado",
   "5_bimestre_planejado", "5_bimestre_replanejado", "5_bimestre_realizado",
   "6_bimestre_planejado", "6_bimestre_replanejado", "6_bimestre_realizado"]

/-- `NUMERIC_COLS` from `schema.py`. -/
def NUMERIC_COLS : List String :=
  ["valor_replanejado_total",
   "1_bimestre_replanejado", "1_bimestre_realizado",
   "2_bimestre_replanejado", "2_bimestre_realizado",
   "3_bimestre_replanejado", "3_bimestre_realizado",
   "4_bimestre_replanejado", "4_bimestre_realizado",
   "5_bimestre_replanejado", "5_bimestre_realizado",
   "6_bimestre_replanejado", "6_bimestre_realizado"]

/-- `BOOL_COLS` from `schema.py` (the six per-bimester planned flags). -/
def BOOL_COLS : List String :=
  ["1_bimestre_planejado", "2_bimestre_planejado", "3_bimestre_planejado",
   "4_bimestre_planejado", "5_bimestre_planejado", "6_bimestre_planejado"]

/-- A dataframe, column-wise: a row count and an association list from
column name to cell column. The transformations of the normalizers are
column-local, so the row count is carried only to materialize missing
columns at the right length. -/
structure Table where
  nrows : Nat
  cols : List (String × List Cell)
deriving DecidableEq

/-- Column lookup; a missing column materializes as all-missing (the
`data[c] = None` fill of the normalizers). -/
def Table.getCol (t : Table) (c : String) : List Cell :=
  match t.cols.find? (fun p => p.1 == c) with
  | some p => p.2
  | none => List.replicate t.nrows Cell.null

/-- `pd.to_numeric(col, errors="coerce").fillna(0.0)` on one cell. -/
def toNumFill (c : Cell) : Cell :=
  Cell.num (cellNum0 c)

/-- Executable model of Python `.upper()`. -/
def strUpper (s : String) : String :=
  String.mk (s.data.map Char.toUpper)

/-- Executable model of Python `.strip()`. -/
def strTrim (s : String) : String :=
  String.mk
    (((s.data.dropWhile Char.isWhitespace).reverse.dropWhile
        Char.isWhitespace).reverse)

/-- One cell of `col.astype(str).str.upper().isin(["TRUE", "1", "SIM"])`
(app.py boolean coercion). -/
def strToBool3 (c : Cell) : Cell :=
  Cell.bool (["TRUE", "1", "SIM"].contains (strUpper c.toStr))

/-- Column dtype test for the `dtype != bool` guard: under the cell model a
column has bool dtype exactly when every stored value is a boolean. -/
def dtypeIsBool (col : List Cell) : Bool :=
  col.all (fun c => match c with | .bool _ => true | _ => false)

/-- The per-column transform of app.py's `normalize_dataframe`: numeric
columns are coerced with zero-fill, boolean columns of non-bool dtype are
coerced through the string-token test, everything else passes through. -/
def normColApp (name : String) (col : List Cell) : List Cell :=
  let col1 := if NUMERIC_COLS.contains name then col.map toNumFill else col
  if BOOL_COLS.contains name then
    (if dtypeIsBool col1 then col1 else col1.map strToBool3)
  else col1

/-- Shallow embedding of `normalize_dataframe` (app.py lines 102-119):
materialize every canonical column, coerce numeric and boolean columns, and
return exactly the canonical column set in canonical order. -/
def normalize_dataframe (t : Table) : Table :=
  ⟨t.nrows, ALL_COLS.map (fun c => (c, normColApp c (t.getCol c)))⟩

lemma find_map_eq {β : Type} (f : String → β) :
    ∀ (l : List String) (c : String), c ∈ l →
      (l.map (fun x => (x, f x))).find? (fun p => p.1 == c) = some (c, f c) := by
  intro l
  induction l with
  | nil => intro c hc; cases hc
  | cons a t ih =>
    intro c hc
    by_cases hac : a = c
    · subst hac
      rw [List.map_cons, List.find?_cons_of_pos _ (by simp)]
    · rw [List.map_cons, List.find?_cons_of_neg _ (by simp [hac])]
      exact ih c (by
        cases List.mem_cons.mp hc with
        | inl h => exact absurd h.symm hac
        | inr h => exact h)

lemma getCol_normalize (t : Table) (c : String) (hc : c ∈ ALL_COLS) :
    (normalize_dataframe t).getCol c = normColApp c (t.getCol c) := by
  have hcols : (normalize_dataframe t).cols
      = ALL_COLS.map (fun x => (x, normColApp x (t.getCol x))) := rfl
  unfold Table.getCol
  rw [hcols, find_map_eq (fun x => normColApp x (t.getCol x)) ALL_COLS c hc]
  rfl

lemma toNumFill_map_idem (col : List Cell) :
    (col.map toNumFill).map toNumFill = col.map toNumFill := by
  rw [List.map_map]
  exact List.map_congr_left (fun c _ => rfl)

lemma dtypeIsBool_map_strToBool3 (col : List Cell) :
    dtypeIsBool (col.map strToBool3) = true := by
  unfold dtypeIsBool
  rw [List.all_map]
  exact List.all_eq_true.mpr (fun c _ => rfl)

lemma normColApp_eq_num (c : String) (col : List Cell)
    (hn : NUMERIC_COLS.contains c = true) (hb : BOOL_COLS.contains c = false) :
    normColApp c col = col.map toNumFill := by
  unfold normColApp
  rw [hn, hb]
  simp

lemma normColApp_eq_bool (c : String) (col : List Cell)
    (hn : NUMERIC_COLS.contains c = false) (hb : BOOL_COLS.contains c = true) :
    normColApp c col
      = (if dtypeIsBool col then col else col.map strToBool3) := by
  unfold normColApp
  rw [hn, hb]
  simp

lemma normColApp_eq_other (c : String) (col : List Cell)
    (hn : NUMERIC_COLS.contains c = false) (hb : BOOL_COLS.contains c = false) :
    normColApp c col = col := by
  unfold normColApp
  rw [hn, hb]
  simp

lemma normColApp_idem_num (c : String) (col : List Cell)
    (hn : NUMERIC_COLS.contains c = true) (hb : BOOL_COLS.contains c = false) :
    normColApp c (normColApp c col) = normColApp c col := by
  rw [normColApp_eq_num c col hn hb, normColApp_eq_num c _ hn hb,
    toNumFill_map_idem]

lemma normColApp_idem_bool (c : String) (col : List Cell)
    (hn : NUMERIC_COLS.contains c = false) (hb : BOOL_COLS.contains c = true) :
    normColApp c (normColApp c col) = normColApp c col := by
  rw [normColApp_eq_bool c col hn hb, normColApp_eq_bool c _ hn hb]
  cases hd : dtypeIsBool col with
  | true => simp [hd]
  | false => simp [hd, dtypeIsBool_map_strToBool3]

lemma normColApp_idem_other (c : String) (col : List Cell)
    (hn : NUMERIC_COLS.contains c = false) (hb : BOOL_COLS.contains c = false) :
    normColApp c (normColApp c col) = normColApp c col := by
  rw [normColApp_eq_other c col hn hb, normColApp_eq_other c col hn hb]

lemma normColApp_idem_of_mem (c : String) (hc : c ∈ ALL_COLS)
    (col : List Cell) :
    normColApp c (normColApp c col) = normColApp c col := by
  fin_cases hc <;>
    first
      | exact normColApp_idem_num _ _ (by decide) (by decide)
      | exact normColApp_idem_bool _ _ (by decide) (by decide)
      | exact normColApp_idem_other _ _ (by decide) (by decide)

lemma normalize_dataframe_idem (t : Table) :
    normalize_dataframe (normalize_dataframe t) = normalize_dataframe t := by
  show Table.mk t.nrows
      (ALL_COLS.map (fun c => (c, normColApp c ((normalize_dataframe t).getCol c))))
    = Table.mk t.nrows
      (ALL_COLS.map (fun c => (c, normColApp c (t.getCol c))))
  apply congrArg
  apply List.map_congr_left
  intro c hc
  rw [getCol_normalize t c hc, normColApp_idem_of_mem c hc]

/-- The six `{i}_bimestre_planejado` columns built by `range(1, 7)` in
applayout.py's normalizer. -/
def PLANEJADO_COLS : List String :=
  ["1_bimestre_planejado", "2_bimestre_planejado", "3_bimestre_planejado",
   "4_bimestre_planejado", "5_bimestre_planejado", "6_bimestre_planejado"]

/-- `set(BOOL_COLS) - set(planejado_cols)` from applayout.py (empty for the
shipped schema, but kept as in the source). -/
def OTHER_BOOL_COLS : List String :=
  BOOL_COLS.filter (fun c => !(PLANEJADO_COLS.contains c))

/-- The case-insensitive truthy token set of applayout.py (`TRUE_TOKENS` and
`TRUE_VALUES_BOOL`, which list the same tokens). -/
def TRUE_TOKENS : List String :=
  ["TRUE", "TRUE()", "1", "SIM", "S", "YES", "VERDADEIRO", "X", "OK", "V"]

/-- Column float-dtype test: every cell a number or missing, and not all
missing. -/
def dtypeIsNum (col : List Cell) : Bool :=
  (col.all (fun c => match c with | .num _ => true | .null => true | _ => false))
    && !(col.all (fun c => match c with | .null => true | _ => false))

/-- Column object-dtype test: neither bool nor float dtype. -/
def dtypeIsObj (col : List Cell) : Bool :=
  !dtypeIsBool col && !dtypeIsNum col

/-- `str.replace(",", ".")` on one string. -/
def commaToDot (s : String) : String :=
  String.mk (s.data.map (fun ch => if ch = ',' then '.' else ch))

/-- The object-column munge of applayout.py's numeric pass:
`astype(str)`, the regex replace (whose pattern `\[R$\.\s\]` demands a
literal "[R" at end-of-string followed by more characters, so it never
matches and is a no-op), then `str.replace(",", ".")`. -/
def mungeCell (c : Cell) : Cell :=
  Cell.str (commaToDot c.toStr)

/-- Numeric pass of applayout.py's normalizer on one column: munge only
object-dtype columns, then coerce with zero-fill. -/
def numStepLayout (col : List Cell) : List Cell :=
  (if dtypeIsObj col then col.map mungeCell else col).map toNumFill

/-- Python truthiness on one cell (`bool(v)`; NaN is truthy). -/
def pyTruthy : Cell → Bool
  | .bool b => b
  | .num q => !(q == 0)
  | .str s => !(s == "")
  | .null => true

/-- The `planejado` pass of applayout.py: bool columns map truth to "X",
numeric columns map non-zero to "X", any other column maps
stripped-uppercased membership in the token set to "X". -/
def planejadoStep (col : List Cell) : List Cell :=
  if dtypeIsBool col then
    col.map (fun c => Cell.str (if pyTruthy c then "X" else ""))
  else if dtypeIsNum col then
    col.map (fun c => Cell.str (if cellNum0 c == 0 then "" else "X"))
  else
    col.map (fun c =>
      Cell.str (if TRUE_TOKENS.contains (strUpper (strTrim c.toStr)) then "X"
        else ""))

/-- The remaining-boolean pass of applayout.py (runs on
`OTHER_BOOL_COLS`, empty for the shipped schema). -/
def otherBoolStep (col : List Cell) : List Cell :=
  if dtypeIsBool col then col
  else if dtypeIsNum col then col.map (fun c => Cell.bool (!(cellNum0 c == 0)))
  else
    col.map (fun c =>
      Cell.bool (TRUE_TOKENS.contains (strUpper (strTrim c.toStr))))

/-- Per-column transform of applayout.py's `normalize_dataframe`
(lines 119-182). -/
def normColLayout (name : String) (col : List Cell) : List Cell :=
  let col1 := if NUMERIC_COLS.contains name then numStepLayout col else col
  let col2 := if PLANEJADO_COLS.contains name then planejadoStep col1 else col1
  if OTHER_BOOL_COLS.contains name then otherBoolStep col2 else col2

/-- Shallow embedding of applayout.py's `normalize_dataframe`: materialize
the canonical columns, numeric coercion with object-column munging, the
"X"/"" logic for the planned flags, and return the canonical column set in
canonical order. -/
def normalize_dataframe_layout (t : Table) : Table :=
  ⟨t.nrows, ALL_COLS.map (fun c => (c, normColLayout c (t.getCol c)))⟩

lemma numStepLayout_fixed (l : List Cell)
    (h : ∀ c ∈ l, ∃ q, c = Cell.num q) : numStepLayout l = l := by
  have hobj : dtypeIsObj l = false := by
    cases l with
    | nil => rfl
    | cons a t =>
      obtain ⟨q, rfl⟩ := h _ (List.mem_cons_self _ _)
      have hnum : ((Cell.num q :: t).all
          (fun c => match c with | .num _ => true | .null => true | _ => false))
            = true := by
        apply List.all_eq_true.mpr
        intro x hx
        rcases List.mem_cons.mp hx with rfl | hx'
        · rfl
        · obtain ⟨q', rfl⟩ := h x (List.mem_cons_of_mem _ hx')
          rfl
      unfold dtypeIsObj dtypeIsNum dtypeIsBool
      rw [hnum]
      simp
  unfold numStepLayout
  rw [hobj]
  simp only [Bool.false_eq_true, if_false]
  calc l.map toNumFill
      = l.map id := List.map_congr_left (fun c hcm => by
        obtain ⟨q, rfl⟩ := h c hcm
        rfl)
    _ = l := List.map_id l

lemma numStepLayout_out_nums (l : List Cell) :
    ∀ c ∈ numStepLayout l, ∃ q, c = Cell.num q := by
  unfold numStepLayout
  intro c hc
  obtain ⟨x, _, rfl⟩ := List.mem_map.mp hc
  exact ⟨cellNum0 x, rfl⟩

lemma numStepLayout_idem (l : List Cell) :
    numStepLayout (numStepLayout l) = numStepLayout l :=
  numStepLayout_fixed _ (numStepLayout_out_nums l)

lemma str_ite_xe (b : Bool) :
    Cell.str (if b then "X" else "") = Cell.str "X"
      ∨ Cell.str (if b then "X" else "") = Cell.str "" := by
  cases b
  · right; rfl
  · left; rfl

lemma str_ite_ex (b : Bool) :
    Cell.str (if b then "" else "X") = Cell.str "X"
      ∨ Cell.str (if b then "" else "X") = Cell.str "" := by
  cases b
  · left; rfl
  · right; rfl

lemma planejadoStep_out_shape (l : List Cell) :
    ∀ c ∈ planejadoStep l, c = Cell.str "X" ∨ c = Cell.str "" := by
  unfold planejadoStep
  intro c hc
  split at hc
  · obtain ⟨x, _, rfl⟩ := List.mem_map.mp hc
    exact str_ite_xe _
  · split at hc
    · obtain ⟨x, _, rfl⟩ := List.mem_map.mp hc
      exact str_ite_ex _
    · obtain ⟨x, _, rfl⟩ := List.mem_map.mp hc
      exact str_ite_xe _

lemma planejadoStep_fixed (l : List Cell)
    (h : ∀ c ∈ l, c = Cell.str "X" ∨ c = Cell.str "") :
    planejadoStep l = l := by
  cases l with
  | nil => rfl
  | cons a t =>
    have hb : dtypeIsBool (a :: t) = false := by
      rcases h a (List.mem_cons_self _ _) with rfl | rfl <;> rfl
    have hn : dtypeIsNum (a :: t) = false := by
      rcases h a (List.mem_cons_self _ _) with rfl | rfl <;> rfl
    unfold planejadoStep
    rw [hb, hn]
    simp only [Bool.false_eq_true, if_false]
    calc (a :: t).map (fun c =>
          Cell.str (if TRUE_TOKENS.contains (strUpper (strTrim c.toStr)) then "X"
            else ""))
        = (a :: t).map id := List.map_congr_left (fun c hcm => by
          rcases h c hcm with rfl | rfl <;> decide)
      _ = a :: t := List.map_id _

lemma planejadoStep_idem (l : List Cell) :
    planejadoStep (planejadoStep l) = planejadoStep l :=
  planejadoStep_fixed _ (planejadoStep_out_shape l)

lemma normColLayout_eq_num (c : String) (col : List Cell)
    (h1 : NUMERIC_COLS.contains c = true) (h2 : PLANEJADO_COLS.contains c = false)
    (h3 : OTHER_BOOL_COLS.contains c = false) :
    normColLayout c col = numStepLayout col := by
  unfold normColLayout
  rw [h1, h2, h3]
  simp

lemma normColLayout_eq_plan (c : String) (col : List Cell)
    (h1 : NUMERIC_COLS.contains c = false) (h2 : PLANEJADO_COLS.contains c = true)
    (h3 : OTHER_BOOL_COLS.contains c = false) :
    normColLayout c col = planejadoStep col := by
  unfold normColLayout
  rw [h1, h2, h3]
  simp

lemma normColLayout_eq_other (c : String) (col : List Cell)
    (h1 : NUMERIC_COLS.contains c = false) (h2 : PLANEJADO_COLS.contains c = false)
    (h3 : OTHER_BOOL_COLS.contains c = false) :
    normColLayout c col = col := by
  unfold normColLayout
  rw [h1, h2, h3]
  simp

lemma normColLayout_idem_of_mem (c : String) (hc : c ∈ ALL_COLS)
    (col : List Cell) :
    normColLayout c (normColLayout c col) = normColLayout c col := by
  fin_cases hc <;>
    first
      | rw [normColLayout_eq_num _ _ (by decide) (by decide) (by decide),
          normColLayout_eq_num _ _ (by decide) (by decide) (by decide),
          numStepLayout_idem]
      | rw [normColLayout_eq_plan _ _ (by decide) (by decide) (by decide),
          normColLayout_eq_plan _ _ (by decide) (by decide) (by decide),
          planejadoStep_idem]
      | rw [normColLayout_eq_other _ _ (by decide) (by decide) (by decide),
          normColLayout_eq_other _ _ (by decide) (by decide) (by decide)]

lemma getCol_normalize_layout (t : Table) (c : String) (hc : c ∈ ALL_COLS) :
    (normalize_dataframe_layout t).getCol c = normColLayout c (t.getCol c) := by
  have hcols : (normalize_dataframe_layout t).cols
      = ALL_COLS.map (fun x => (x, normColLayout x (t.getCol x))) := rfl
  unfold Table.getCol
  rw [hcols, find_map_eq (fun x => normColLayout x (t.getCol x)) ALL_COLS c hc]
  rfl

lemma normalize_dataframe_layout_idem (t : Table) :
    normalize_dataframe_layout (normalize_dataframe_layout t)
      = normalize_dataframe_layout t := by
  show Table.mk t.nrows
      (ALL_COLS.map (fun c =>
        (c, normColLayout c ((normalize_dataframe_layout t).getCol c))))
    = Table.mk t.nrows
      (ALL_COLS.map (fun c => (c, normColLayout c (t.getCol c))))
  apply congrArg
  apply List.map_congr_left
  intro c hc
  rw [getCol_normalize_layout t c hc, normColLayout_idem_of_mem c hc]

/-- C8. Both normalizers are idempotent: for every input table, a second
application of `normalize_dataframe` (app.py) or of the applayout.py
variant changes nothing — the column set, the canonical column order, and
the coerced numeric/boolean (resp. "X"/"") cell values converge after one
pass. -/
theorem C8_normalize_idempotent (t : Table) :
    normalize_dataframe (normalize_dataframe t) = normalize_dataframe t
    ∧ normalize_dataframe_layout (normalize_dataframe_layout t)
        = normalize_dataframe_layout t :=
  ⟨normalize_dataframe_idem t, normalize_dataframe_layout_idem t⟩

/-- A wide-view row for the pivot table: association list from column name
to cell. -/
abbrev WRow := List (String × Cell)

/-- Column access on a wide row (missing column reads as NaN). -/
def wGet (r : WRow) (c : String) : Cell :=
  match r.find? (fun p => p.1 == c) with
  | some p => p.2
  | none => Cell.null

/-- The group key of a row for a chosen dimension-column list. -/
def keyOf (dims : List String) (r : WRow) : List Cell :=
  dims.map (wGet r)

/-- Sort encoding of one cell: numbers, then strings (by their character
codes), then booleans, then missing values last, mirroring how pandas orders
group keys (NaN groups last). -/
def cellKey (c : Cell) : Lex (ℕ × Lex (ℚ × List ℕ)) :=
  match c with
  | .num q => toLex (0, toLex (q, []))
  | .str s => toLex (1, toLex (0, s.data.map Char.toNat))
  | .bool b => toLex (2, toLex ((if b then 1 else 0 : ℚ), []))
  | .null => toLex (3, toLex (0, []))

/-- Group-key order used by the sorted `groupby` output. -/
def keyLe (a b : List Cell) : Prop :=
  a.map cellKey ≤ b.map cellKey

instance : DecidableRel keyLe :=
  fun a b => inferInstanceAs (Decidable (a.map cellKey ≤ b.map cellKey))

instance : IsTotal (List Cell) keyLe :=
  ⟨fun a b => le_total (a.map cellKey) (b.map cellKey)⟩

instance : IsTrans (List Cell) keyLe :=
  ⟨fun _ _ _ h1 h2 => le_trans h1 h2⟩

/-- First-occurrence deduplication (pandas `drop_duplicates` / the distinct
group keys), with an accumulator of already-seen values. -/
def firstDedupGo {α : Type} [DecidableEq α] (seen : List α) : List α → List α
  | [] => []
  | a :: t =>
    if a ∈ seen then firstDedupGo seen t else a :: firstDedupGo (a :: seen) t

/-- First-occurrence deduplication of a list. -/
def firstDedup {α : Type} [DecidableEq α] (l : List α) : List α :=
  firstDedupGo [] l

lemma mem_firstDedupGo {α : Type} [DecidableEq α] (x : α) :
    ∀ (l seen : List α), x ∈ firstDedupGo seen l ↔ (x ∈ l ∧ x ∉ seen) := by
  intro l
  induction l with
  | nil => intro seen; simp [firstDedupGo]
  | cons a t ih =>
    intro seen
    have hstep : firstDedupGo seen (a :: t)
        = if a ∈ seen then firstDedupGo seen t
          else a :: firstDedupGo (a :: seen) t := rfl
    by_cases ha : a ∈ seen
    · rw [hstep, if_pos ha, ih seen]
      constructor
      · rintro ⟨hx, hs⟩
        exact ⟨List.mem_cons_of_mem _ hx, hs⟩
      · rintro ⟨hx, hs⟩
        rcases List.mem_cons.mp hx with rfl | h
        · exact absurd ha hs
        · exact ⟨h, hs⟩
    · rw [hstep, if_neg ha]
      constructor
      · intro hx
        rcases List.mem_cons.mp hx with rfl | h
        · exact ⟨List.mem_cons_self _ _, ha⟩
        · have h2 := (ih (a :: seen)).mp h
          exact ⟨List.mem_cons_of_mem _ h2.1,
            fun hs => h2.2 (List.mem_cons_of_mem _ hs)⟩
      · rintro ⟨hx, hs⟩
        rcases List.mem_cons.mp hx with rfl | h
        · exact List.mem_cons_self _ _
        · by_cases hxa : x = a
          · subst hxa
            exact List.mem_cons_self _ _
          · refine List.mem_cons_of_mem _ ((ih (a :: seen)).mpr ⟨h, ?_⟩)
            intro hmem
            rcases List.mem_cons.mp hmem with h' | h'
            · exact hxa h'
            · exact hs h'

lemma nodup_firstDedupGo {α : Type} [DecidableEq α] :
    ∀ (l seen : List α), (firstDedupGo seen l).Nodup := by
  intro l
  induction l with
  | nil => intro seen; simp [firstDedupGo]
  | cons a t ih =>
    intro seen
    have hstep : firstDedupGo seen (a :: t)
        = if a ∈ seen then firstDedupGo seen t
          else a :: firstDedupGo (a :: seen) t := rfl
    by_cases ha : a ∈ seen
    · rw [hstep, if_pos ha]
      exact ih seen
    · rw [hstep, if_neg ha]
      refine List.nodup_cons.mpr ⟨?_, ih (a :: seen)⟩
      intro hmem
      exact ((mem_firstDedupGo a t (a :: seen)).mp hmem).2
        (List.mem_cons_self _ _)

lemma mem_firstDedup {α : Type} [DecidableEq α] (x : α) (l : List α) :
    x ∈ firstDedup l ↔ x ∈ l := by
  unfold firstDedup
  rw [mem_firstDedupGo]
  simp

lemma nodup_firstDedup {α : Type} [DecidableEq α] (l : List α) :
    (firstDedup l).Nodup :=
  nodup_firstDedupGo l []

/-- The distinct group keys of `df.groupby(dims, dropna=False)`, in the
sorted order pandas emits them (`groupby` sorts keys by default; rows with
null dimension values keep their own group). -/
def groupKeys (rows : List WRow) (dims : List String) : List (List Cell) :=
  List.insertionSort keyLe (firstDedup (rows.map (keyOf dims)))

/-- One output row of the grouped sum (`reset_index` layout: the dimension
columns carrying the group key, then one summed column per measure; sums
skip unparsable cells as pandas `sum` skips NaN). -/
def groupRow (rows : List WRow) (dims meas : List String) (k : List Cell) :
    WRow :=
  dims.zip k
    ++ meas.map (fun m =>
      (m, Cell.num
        (((rows.filter (fun r => decide (keyOf dims r = k))).map
          (fun r => cellNum0 (wGet r m))).sum)))

/-- `df.groupby(sel_dims, dropna=False)[sel_meas].sum().reset_index()`. -/
def groupbySum (rows : List WRow) (dims meas : List String) : List WRow :=
  (groupKeys rows dims).map (groupRow rows dims meas)

/-- Shallow embedding of the pivot-table dispatch (app.py lines 685-700):
nothing selected yields no table; dimensions and measures yield the grouped
sum; dimensions only yield the distinct combinations; measures only yield a
single grand-total row. -/
def aggTable (rows : List WRow) (sel_dims sel_meas : List String) :
    Option (List WRow) :=
  if sel_dims.isEmpty && sel_meas.isEmpty then none
  else if !sel_dims.isEmpty && !sel_meas.isEmpty then
    some (groupbySum rows sel_dims sel_meas)
  else if !sel_dims.isEmpty then
    some (firstDedup (rows.map (fun r => sel_dims.map (fun c => (c, wGet r c)))))
  else
    some [sel_meas.map (fun m =>
      (m, Cell.num ((rows.map (fun r => cellNum0 (wGet r m))).sum)))]

/-- Scenario wide rows for the aggregator claim. -/
def exR1 : WRow := [("unit", Cell.str "DER"), ("measure", Cell.num 100)]

/-- Second scenario row (same unit as the first). -/
def exR2 : WRow := [("unit", Cell.str "DER"), ("measure", Cell.num 50)]

/-- Third scenario row (a different unit). -/
def exR3 : WRow := [("unit", Cell.str "SEE"), ("measure", Cell.num 30)]

/-- C9. With non-empty dimension and measure selections the aggregator
produces the grouped sums: one output row per distinct observed key
combination (rows with null dimension values keep their own group), each
measure summed within its group, the groups sorted by the dimension columns;
on the scenario rows (DER, 100), (DER, 50), (SEE, 30) grouped by `unit`
summing `measure` the output is exactly [(DER, 150), (SEE, 30)]. -/
theorem C9_aggregator_groupby (rows : List WRow) (dims meas : List String)
    (hd : dims ≠ []) (hm : meas ≠ []) :
    aggTable rows dims meas
        = some ((groupKeys rows dims).map (groupRow rows dims meas))
    ∧ (∀ k, k ∈ groupKeys rows dims ↔ k ∈ rows.map (keyOf dims))
    ∧ (groupKeys rows dims).Sorted keyLe
    ∧ (groupKeys rows dims).Nodup
    ∧ aggTable [exR1, exR2, exR3] ["unit"] ["measure"]
        = some [[("unit", Cell.str "DER"), ("measure", Cell.num 150)],
                [("unit", Cell.str "SEE"), ("measure", Cell.num 30)]] := by
  have hde : dims.isEmpty = false := by
    cases dims
    · exact absurd rfl hd
    · rfl
  have hme : meas.isEmpty = false := by
    cases meas
    · exact absurd rfl hm
    · rfl
  refine ⟨?_, ?_, ?_, ?_, ?_⟩
  · simp [aggTable, hde, hme, groupbySum]
  · intro k
    unfold groupKeys
    rw [List.mem_insertionSort, mem_firstDedup]
  · exact List.sorted_insertionSort keyLe _
  · exact ((List.perm_insertionSort keyLe _).nodup_iff).mpr
      (nodup_firstDedup _)
  · have hdisp : aggTable [exR1, exR2, exR3] ["unit"] ["measure"]
        = some (groupbySum [exR1, exR2, exR3] ["unit"] ["measure"]) := rfl
    rw [hdisp]
    have hkeys : groupKeys [exR1, exR2, exR3] ["unit"]
        = [[Cell.str "DER"], [Cell.str "SEE"]] := by decide
    unfold groupbySum
    rw [hkeys, List.map_cons, List.map_cons, List.map_nil]
    have hfD : ([exR1, exR2, exR3].filter
        (fun r => decide (keyOf ["unit"] r = [Cell.str "DER"])))
        = [exR1, exR2] := by decide
    have hfS : ([exR1, exR2, exR3].filter
        (fun r => decide (keyOf ["unit"] r = [Cell.str "SEE"])))
        = [exR3] := by decide
    unfold groupRow
    rw [hfD, hfS]
    simp only [List.map_cons, List.map_nil]
    have he1 : cellNum0 (wGet exR1 "measure") = 100 := by decide
    have he2 : cellNum0 (wGet exR2 "measure") = 50 := by decide
    have he3 : cellNum0 (wGet exR3 "measure") = 30 := by decide
    rw [he1, he2, he3]
    have hsD : ([(100 : ℚ), 50]).sum = 150 := by
      norm_num [List.sum_cons, List.sum_nil]
    have hsS : ([(30 : ℚ)]).sum = 30 := by
      norm_num [List.sum_cons, List.sum_nil]
    rw [hsD, hsS]
    rfl

/-- Witness for C9 at the scenario inputs. -/
theorem C9_aggregator_groupby_witness :
    aggTable [exR1, exR2, exR3] ["unit"] ["measure"]
      = some ((groupKeys [exR1, exR2, exR3] ["unit"]).map
          (groupRow [exR1, exR2, exR3] ["unit"] ["measure"])) :=
  (C9_aggregator_groupby [exR1, exR2, exR3] ["unit"] ["measure"] (by decide)
    (by decide)).1

end Propag
